import Mathlib

set_option maxRecDepth 8192

namespace PZK

/- Shallow embedding of the PZK repository (parser.py and app.py).
   Python strings are Lean String / List Char; Python floats (monetary
   amounts) are modelled as rationals; Python dicts keyed by strings are
   modelled as association lists in insertion order (keys unique, as in a
   Python dict); a value that may be absent (an empty dict, a None cell)
   is an Option. -/

/-- StatementHeader dataclass of parser.py (all fields defaultable). -/
structure StatementHeader where
  document_number : String := ""
  document_date : String := ""
  owner : String := ""
  account_number : String := ""
  account_opened : String := ""
  generated_at : String := ""
  period_from : String := ""
  period_to : String := ""
  currency : String := ""
  opening_balance : ℚ := 0
  deriving DecidableEq

/-- Transaction dataclass of parser.py. -/
structure Transaction where
  date : String
  time : String
  document : String
  description : String
  amount : ℚ
  is_credit : Bool
  deriving DecidableEq

/-- StatementFooter dataclass of parser.py. -/
structure StatementFooter where
  total_credits : ℚ := 0
  total_debits : ℚ := 0
  closing_balance : ℚ := 0
  deriving DecidableEq

/-- BankStatement dataclass of parser.py. -/
structure BankStatement where
  header : StatementHeader := {}
  transactions : List Transaction := []
  footer : StatementFooter := {}
  deriving DecidableEq

/-- Characters treated as whitespace by Python's str.strip() and by the
regex class backslash-s on str patterns (ASCII whitespace plus the Unicode
space characters; the two Python notions coincide). -/
def pyIsSpace (c : Char) : Bool :=
  c ∈ [' ', '\t', '\n', '\r', '\x0b', '\x0c', '\x1c', '\x1d', '\x1e', '\x1f',
       '\x85', '\xa0', '\u1680', '\u2000', '\u2001', '\u2002', '\u2003',
       '\u2004', '\u2005', '\u2006', '\u2007', '\u2008', '\u2009', '\u200a',
       '\u2028', '\u2029', '\u202f', '\u205f', '\u3000']

/-- Python str.strip(): drop whitespace from both ends. -/
def pyStrip (l : List Char) : List Char :=
  ((l.dropWhile pyIsSpace).reverse.dropWhile pyIsSpace).reverse

/-- Python str.strip() on a Lean String. -/
def pyStripS (s : String) : String :=
  String.mk (pyStrip s.data)

/-- Lexicographic comparison of two character lists by code point: the
ordering Python uses for str comparison. -/
def lexLt : List Char → List Char → Bool
  | [], [] => false
  | [], _ :: _ => true
  | _ :: _, [] => false
  | a :: as, b :: bs => if a < b then true else if b < a then false else lexLt as bs

/-- Numeric value of a list of decimal digit characters. -/
def digitsVal (l : List Char) : Nat :=
  l.foldl (fun a c => a * 10 + (c.toNat - 48)) 0

/-- Python float(str) restricted to plain decimal literals: optional
whitespace around an integer part, an optional dot and fraction part.
Returns none where Python raises ValueError.  (Exponents, inf, nan and
underscores are outside the fragment the repository's inputs can produce,
since every call site has already removed signs or restricted the
characters to digits, separators and dots.) -/
def floatOfChars (chars : List Char) : Option ℚ :=
  let l := pyStrip chars
  let ip := l.takeWhile (fun c => c != '.')
  let rest := l.dropWhile (fun c => c != '.')
  match rest with
  | [] =>
    if !ip.isEmpty && ip.all Char.isDigit then some ((digitsVal ip : ℚ)) else none
  | _ :: fp =>
    if fp.contains '.' then none
    else if (!ip.isEmpty || !fp.isEmpty) && ip.all Char.isDigit && fp.all Char.isDigit then
      some ((digitsVal ip : ℚ) + (digitsVal fp : ℚ) / (10 : ℚ) ^ fp.length)
    else none

/-- parse_amount of parser.py: strip, read the leading sign, delete sign,
currency and whitespace characters (the regex sub on the class plus,
minus, ruble sign, backslash-s), delete no-break spaces, strip, turn
commas into dots, then convert; a failed conversion yields 0.0. -/
def parse_amount (text : String) : ℚ × Bool :=
  let t := pyStrip text.data
  let is_credit := t.head? == some '+'
  let cleaned := t.filter fun c => !(c == '+' || c == '-' || c == '₽' || pyIsSpace c)
  let cleaned := cleaned.filter fun c => c != '\xa0'
  let cleaned := pyStrip cleaned
  let cleaned := cleaned.map fun c => if c == ',' then '.' else c
  ((floatOfChars cleaned).getD 0, is_credit)

/-- Regular expressions as used by parser.py: literals, character
classes, sequencing, alternation (preferring the left branch), greedy
star and capture groups — the fragment Python's re module is applied to
in this repository. -/
inductive RE where
  | eps
  | lit (c : Char)
  | cls (p : Char → Bool)
  | seq (a b : RE)
  | alt (a b : RE)
  | star (a : RE)
  | group (n : Nat) (a : RE)

/-- Captured groups of one match: group number paired with its text. -/
abbrev Caps := List (Nat × List Char)

/-- Greedy iteration of a sub-matcher: longer iterations are preferred,
every iteration must consume at least one character (Python's behavior
for star over a possibly-empty body). -/
def matchStar (m : List Char → List (Caps × List Char)) : Nat → List Char → List (Caps × List Char)
  | 0, l => [([], l)]
  | fuel + 1, l =>
    ((m l).filter (fun r => r.2.length < l.length)).flatMap
      (fun r => (matchStar m fuel r.2).map (fun r2 => (r.1 ++ r2.1, r2.2)))
    ++ [([], l)]

/-- All ways a pattern can match a prefix of the input, in Python's
backtracking preference order (first result = Python's match). -/
def matchRE : RE → List Char → List (Caps × List Char)
  | .eps, l => [([], l)]
  | .lit c, l =>
    match l with
    | c' :: rest => if c' == c then [([], rest)] else []
    | [] => []
  | .cls p, l =>
    match l with
    | c' :: rest => if p c' then [([], rest)] else []
    | [] => []
  | .seq a b, l =>
    (matchRE a l).flatMap (fun r => (matchRE b r.2).map (fun r2 => (r.1 ++ r2.1, r2.2)))
  | .alt a b, l => matchRE a l ++ matchRE b l
  | .star a, l => matchStar (matchRE a) (l.length + 1) l
  | .group n a, l =>
    (matchRE a l).map (fun r => (r.1 ++ [(n, l.take (l.length - r.2.length))], r.2))

/-- Python re.match: anchored at the start of the input. -/
def reMatch (r : RE) (l : List Char) : Option Caps :=
  (matchRE r l).head?.map (·.1)

/-- Python re.search: the leftmost position with a match wins. -/
def reSearch (r : RE) : List Char → Option Caps
  | [] => reMatch r []
  | c :: t =>
    match reMatch r (c :: t) with
    | some caps => some caps
    | none => reSearch r t

/-- Value of a capture group (none when the group did not participate). -/
def capGet (caps : Caps) (n : Nat) : Option (List Char) :=
  (caps.find? (fun e => e.1 == n)).map (·.2)

/-- Literal string as a pattern. -/
def rstr (s : String) : RE :=
  s.data.foldr (fun c r => RE.seq (.lit c) r) .eps

/-- One or more repetitions (greedy). -/
def rplus (a : RE) : RE := .seq a (.star a)

/-- Optional pattern (greedy: presence preferred). -/
def ropt (a : RE) : RE := .alt a .eps

/-- Zero or more whitespace characters: backslash-s star. -/
def rws : RE := .star (.cls pyIsSpace)

/-- One decimal digit: backslash-d. -/
def rdigit : RE := .cls Char.isDigit

/-- Class of digits, whitespace, comma and dot used by the money-amount
patterns of parser.py. -/
def rnumcls : RE := rplus (.cls fun c => c.isDigit || pyIsSpace c || c == ',' || c == '.')

/-- Pattern for the document number field of parse_header_text. -/
def reDocNumber : RE :=
  .seq (.lit '№') (.seq rws (.group 1 (.seq (rstr "Ф-")
    (rplus (.cls fun c => c.isDigit || c == '-')))))

/-- Pattern for the document date field of parse_header_text. -/
def reDocDate : RE :=
  .seq (rstr "от") (.seq rws (.seq (.cls fun c => c == '«' || c == '"')
    (.seq rws (.seq (.group 1 (.seq rdigit (ropt rdigit)))
    (.seq rws (.seq (.cls fun c => c == '»' || c == '"')
    (.seq rws (.seq (.group 2 (rplus (.cls fun c => !pyIsSpace c)))
    (.seq rws (.seq (.group 3 (.seq rdigit (.seq rdigit (.seq rdigit rdigit))))
    (.seq rws (rstr "года"))))))))))))

/-- Pattern for the owner field of parse_header_text (dot matches any
character but a newline). -/
def reOwner : RE :=
  .seq (rstr "Владелец:") (.seq rws (.seq (ropt (.lit '\n'))
    (.seq rws (.group 1 (rplus (.cls fun c => c != '\n'))))))

/-- Pattern for the account number field of parse_header_text. -/
def reAccount : RE :=
  .seq (.lit '№') (.seq rws (.group 1 (.seq (rstr "409") (rplus rdigit))))

/-- Pattern for the account-opened field of parse_header_text. -/
def reOpened : RE :=
  .seq (rstr "открыт") (.seq rws (.group 1 (rplus (.cls fun c => c.isDigit || c == '.'))))

/-- Pattern for the generated-at field of parse_header_text. -/
def reGenerated : RE :=
  .seq (rstr "формирования документа:") (.seq rws (.group 1
    (rplus (.cls fun c => c.isDigit || c == '.' || pyIsSpace c || c == ':'))))

/-- Pattern for the statement period field of parse_header_text. -/
def rePeriod : RE :=
  .seq (rstr "Период выписки:") (.seq rws (.seq (.group 1
      (rplus (.cls fun c => c.isDigit || c == '.')))
    (.seq rws (.seq (.cls fun c => c == '–' || c == '-')
    (.seq rws (.group 2 (rplus (.cls fun c => c.isDigit || c == '.'))))))))

/-- Pattern for the currency field of parse_header_text. -/
def reCurrency : RE :=
  .seq (rstr "Валюта:") (.seq rws (.group 1 (rplus (.cls fun c => c != '\n'))))

/-- Pattern for the opening balance field of parse_header_text. -/
def reOpening : RE :=
  .seq (rstr "Входящий остаток:") (.seq rws (.group 1 rnumcls))

/-- Cleanup applied by parser.py to a captured money amount before float
conversion: delete no-break spaces and spaces, commas become dots. -/
def cleanMoney (l : List Char) : List Char :=
  ((l.filter (fun c => c != '\xa0')).filter (fun c => c != ' ')).map
    (fun c => if c == ',' then '.' else c)

/-- parse_header_text of parser.py: one independent first-match pattern
per field; a missing match leaves the default, a failed numeric
conversion leaves the default. -/
def parse_header_text (full_text : String) : StatementHeader :=
  let t := full_text.data
  let header : StatementHeader := {}
  let header :=
    match reSearch reDocNumber t with
    | some caps => { header with document_number := String.mk ((capGet caps 1).getD []) }
    | none => header
  let header :=
    match reSearch reDocDate t with
    | some caps =>
      { header with document_date := String.mk ((capGet caps 1).getD [] ++ ' ' ::
          ((capGet caps 2).getD [] ++ ' ' :: (capGet caps 3).getD [])) }
    | none => header
  let header :=
    match reSearch reOwner t with
    | some caps => { header with owner := String.mk (pyStrip ((capGet caps 1).getD [])) }
    | none => header
  let header :=
    match reSearch reAccount t with
    | some caps => { header with account_number := String.mk ((capGet caps 1).getD []) }
    | none => header
  let header :=
    match reSearch reOpened t with
    | some caps => { header with account_opened := String.mk ((capGet caps 1).getD []) }
    | none => header
  let header :=
    match reSearch reGenerated t with
    | some caps => { header with generated_at := String.mk (pyStrip ((capGet caps 1).getD [])) }
    | none => header
  let header :=
    match reSearch rePeriod t with
    | some caps =>
      { header with period_from := String.mk ((capGet caps 1).getD []),
                    period_to := String.mk ((capGet caps 2).getD []) }
    | none => header
  let header :=
    match reSearch reCurrency t with
    | some caps => { header with currency := String.mk (pyStrip ((capGet caps 1).getD [])) }
    | none => header
  let header :=
    match reSearch reOpening t with
    | some caps =>
      match floatOfChars (cleanMoney ((capGet caps 1).getD [])) with
      | some q => { header with opening_balance := q }
      | none => header
    | none => header
  header

/-- Pattern for the total credits line of parse_footer_text. -/
def reTotalCredits : RE :=
  .seq (rstr "Итого зачислений за период:") (.seq rws (.group 1 rnumcls))

/-- Pattern for the total debits line of parse_footer_text. -/
def reTotalDebits : RE :=
  .seq (rstr "Итого списаний за период:") (.seq rws (.group 1 rnumcls))

/-- Pattern for the closing balance line of parse_footer_text. -/
def reClosing : RE :=
  .seq (rstr "Исходящий остаток:") (.seq rws (.group 1 rnumcls))

/-- extract_total of parse_footer_text: first match, cleaned, converted;
0.0 both when the pattern does not match and when conversion fails. -/
def extract_total (r : RE) (t : List Char) : ℚ :=
  match reSearch r t with
  | some caps => (floatOfChars (cleanMoney ((capGet caps 1).getD []))).getD 0
  | none => 0

/-- parse_footer_text of parser.py. -/
def parse_footer_text (full_text : String) : StatementFooter :=
  let t := full_text.data
  { total_credits := extract_total reTotalCredits t,
    total_debits := extract_total reTotalDebits t,
    closing_balance := extract_total reClosing t }

/-- One page of an opened document, at the pdfplumber boundary: the text
extract_text returns (None possible) and the tables extract_tables
returns, a table being a list of rows of optional cell strings. -/
structure Page where
  text : Option String
  tables : List (List (List (Option String)))

/-- Anchored pattern classifying a transaction row in
parse_transactions_from_tables: a dd.mm.yyyy date, optional whitespace,
an optional hh:mm:ss time. -/
def rowDateRE : RE :=
  .seq (.group 1 (.seq rdigit (.seq rdigit (.seq (.lit '.')
    (.seq rdigit (.seq rdigit (.seq (.lit '.')
    (.seq rdigit (.seq rdigit (.seq rdigit rdigit))))))))))
  (.seq rws (ropt (.group 2
    (.seq rdigit (.seq rdigit (.seq (.lit ':')
    (.seq rdigit (.seq rdigit (.seq (.lit ':')
    (.seq rdigit rdigit))))))))))

/-- Test used by parse_transactions_from_tables to skip repeated table
header rows: the first cell is a known header label or contains the
amount-column label. -/
def containsSub (needle hay : List Char) : Bool :=
  hay.tails.any (fun t => needle.isPrefixOf t)

/-- Amount-text selection of parse_transactions_from_tables: column 3;
when column 3 is empty and the row has at least five cells, the
second-to-last column; otherwise empty (no usable amount text). -/
def rowAmountText (row : List (Option String)) : String :=
  let amount_text := pyStripS ((row.getD 3 none).getD "")
  if amount_text == "" then
    if row.length ≥ 5 then pyStripS ((row.getD (row.length - 2) none).getD "") else ""
  else amount_text

/-- Body of the row loop of parse_transactions_from_tables: either the
transaction a row yields, or none for every skipped row (short row,
header label, no date, no usable amount text). -/
def rowToTxn (row : List (Option String)) : Option Transaction :=
  if row.length < 4 then none
  else
    let cell0 := pyStripS ((row.getD 0 none).getD "")
    if cell0 == "Дата операции" || cell0 == "" || containsSub "Сумма операции".data cell0.data then none
    else
      match reMatch rowDateRE cell0.data with
      | none => none
      | some caps =>
        let date_str := String.mk ((capGet caps 1).getD [])
        let time_str := String.mk ((capGet caps 2).getD [])
        let document := pyStripS ((row.getD 1 none).getD "")
        let description := String.mk ((pyStrip ((row.getD 2 none).getD "").data).map
          (fun c => if c == '\n' then ' ' else c))
        let amount_text := rowAmountText row
        if amount_text == "" then none
        else
          let r := parse_amount amount_text
          some { date := date_str, time := time_str, document := document,
                 description := description, amount := r.1, is_credit := r.2 }

/-- Transactions extracted from one table: each row contributes
independently (the per-row continue statements of the Python loop). -/
def tableTxns (table : List (List (Option String))) : List Transaction :=
  table.filterMap rowToTxn

/-- parse_transactions_from_tables of parser.py. -/
def parse_transactions_from_tables (pages : List Page) : List Transaction :=
  pages.flatMap (fun page => page.tables.flatMap tableTxns)

/-- Python str.join with a newline separator, as used to build full_text. -/
def joinNL : List String → String
  | [] => ""
  | [s] => s
  | s :: rest => s ++ "\n" ++ joinNL rest

/-- parse_ozon_bank_pdf of parser.py.  The pdfplumber boundary is
modelled by the argument: none when pdfplumber.open raises (the document
cannot be opened, the exception propagates to the caller as the error
case), some pages when the document opens. -/
def parse_ozon_bank_pdf (doc : Option (List Page)) : Except String BankStatement :=
  match doc with
  | none => .error "cannot open document"
  | some pages =>
    let full_text := joinNL (pages.map (fun p => p.text.getD ""))
    .ok { header := parse_header_text full_text,
          footer := parse_footer_text full_text,
          transactions := parse_transactions_from_tables pages }

/-- Python str.split on a dot, on character lists. -/
def splitOnDot : List Char → List (List Char)
  | [] => [[]]
  | c :: rest =>
    match splitOnDot rest with
    | h :: t => if c == '.' then [] :: h :: t else (c :: h) :: t
    | [] => [[c]]

/-- dmy_to_sortable of app.py: rewrite dd.mm.yyyy to yyyy-mm-dd; any
string not splitting into exactly three dot-separated parts is returned
unchanged. -/
def dmy_to_sortable (dmy : String) : String :=
  match splitOnDot dmy.data with
  | [d, m, y] => String.mk (y ++ '-' :: (m ++ '-' :: d))
  | _ => dmy

/-- Header reconciliation branch of merge_statement for a non-empty
stored header: widen the period using comparisons of the yyyy-mm-dd
rewrites (Python string comparison is lexLt on code points), then
overwrite the seven latest-wins fields when the new value is non-empty. -/
def mergeHeader (h new_h : StatementHeader) : StatementHeader :=
  let old_from := dmy_to_sortable h.period_from
  let new_from := dmy_to_sortable new_h.period_from
  let h1 := if new_from ≠ "" ∧ (old_from = "" ∨ lexLt new_from.data old_from.data) then
    { h with period_from := new_h.period_from } else h
  let old_to := dmy_to_sortable h1.period_to
  let new_to := dmy_to_sortable new_h.period_to
  let h2 := if new_to ≠ "" ∧ (old_to = "" ∨ lexLt old_to.data new_to.data) then
    { h1 with period_to := new_h.period_to } else h1
  { h2 with
    owner := if new_h.owner ≠ "" then new_h.owner else h2.owner,
    account_number := if new_h.account_number ≠ "" then new_h.account_number else h2.account_number,
    account_opened := if new_h.account_opened ≠ "" then new_h.account_opened else h2.account_opened,
    currency := if new_h.currency ≠ "" then new_h.currency else h2.currency,
    document_number := if new_h.document_number ≠ "" then new_h.document_number else h2.document_number,
    document_date := if new_h.document_date ≠ "" then new_h.document_date else h2.document_date,
    generated_at := if new_h.generated_at ≠ "" then new_h.generated_at else h2.generated_at }

/-- Persisted ledger store of app.py: header dict (none models the empty
dict), the transactions dict as an association list in insertion order,
footer dict (none models the empty dict). -/
structure Store where
  header : Option StatementHeader
  transactions : List (String × Transaction)
  footer : Option StatementFooter
  deriving DecidableEq

/-- Python dict lookup on the association-list model. -/
def alookup (d : String) : List (String × Transaction) → Option Transaction
  | [] => none
  | (k, v) :: rest => if k = d then some v else alookup d rest

/-- Transaction merge loop of merge_statement: insert a snapshot
transaction under its document id only when the id is not yet a key;
count insertions. -/
def mergeTxnList (txns : List (String × Transaction)) : List Transaction → List (String × Transaction) × Nat
  | [] => (txns, 0)
  | t :: ts =>
    match alookup t.document txns with
    | some _ => mergeTxnList txns ts
    | none =>
      let r := mergeTxnList (txns ++ [(t.document, t)]) ts
      (r.1, r.2 + 1)

/-- Aggregate loop of merge_statement: running credit and debit sums
over the merged transaction values. -/
def totalsOf (txns : List (String × Transaction)) : ℚ × ℚ :=
  txns.foldl (fun acc e => if e.2.is_credit then (acc.1 + e.2.amount, acc.2)
                           else (acc.1, acc.2 + e.2.amount)) (0, 0)

/-- Python round(x, 2) modelled on rationals (round to two decimal
places; Python resolves exact ties to even, which can only differ from
this rounding at an exact tie and is irrelevant to every theorem below,
all of which use round2 on both sides). -/
def round2 (q : ℚ) : ℚ :=
  (round (q * 100) : ℚ) / 100

/-- merge_statement of app.py: reconcile the header, dedup-merge the
transactions by document id, recompute the footer from the merged
mapping. -/
def merge_statement (store : Store) (statement : BankStatement) : Store × Nat :=
  let h :=
    match store.header with
    | none => statement.header
    | some h0 => mergeHeader h0 statement.header
  let r := mergeTxnList store.transactions statement.transactions
  let tot := totalsOf r.1
  ({ header := some h,
     transactions := r.1,
     footer := some { total_credits := round2 tot.1,
                      total_debits := round2 tot.2,
                      closing_balance := round2 (h.opening_balance + tot.1 - tot.2) } },
   r.2)

/-- Sort key of store_to_statement: the yyyy-mm-dd rewrite of the date
paired with the time string. -/
def txnSortKey (t : Transaction) : String × String :=
  (dmy_to_sortable t.date, t.time)

/-- Python tuple comparison of two sort keys (lexicographic on the pair
of strings). -/
def keyLtB (a b : String × String) : Bool :=
  lexLt a.1.data b.1.data || (a.1 == b.1 && lexLt a.2.data b.2.data)

/-- Descending comparison used by the view sort: a may be placed before
b exactly when a's key is not smaller (Python list.sort with
reverse=True keeps the original order of equal keys). -/
def viewLe (a b : Transaction) : Bool :=
  !keyLtB (txnSortKey a) (txnSortKey b)

/-- Stable insertion into a sorted list: x goes before the first element
it may precede. -/
def insSorted (le : α → α → Bool) (x : α) : List α → List α
  | [] => [x]
  | y :: ys => if le x y then x :: y :: ys else y :: insSorted le x ys

/-- Stable sort (insertion sort), modelling Python's stable list.sort. -/
def sortByLe (le : α → α → Bool) (l : List α) : List α :=
  l.foldr (insSorted le) []

/-- store_to_statement of app.py: the no-statement sentinel for an empty
transaction mapping, otherwise header and footer filled from the store
with defaults for missing parts and the transactions sorted descending
by (rewritten date, time). -/
def store_to_statement (store : Store) : Option BankStatement :=
  match store.transactions with
  | [] => none
  | _ =>
    let header := store.header.getD {}
    let footer := store.footer.getD {}
    let txn_list := sortByLe viewLe (store.transactions.map Prod.snd)
    some { header := header, transactions := txn_list, footer := footer }

/- Concrete stores, snapshots and rows used by the witness and
counterexample theorems below. -/

def c1stored : Transaction := ⟨"01.03.2024", "", "X", "kept", 5, true⟩

def c1snapTxn : Transaction := ⟨"02.03.2024", "12:00:00", "X", "dropped", 7, false⟩

def c1store : Store := ⟨none, [("X", c1stored)], none⟩

def c1snap : BankStatement := ⟨{}, [c1snapTxn], {}⟩

def c4tA : Transaction := ⟨"01.03.2024", "", "X", "first", 1, true⟩

def c4tB : Transaction := ⟨"01.03.2024", "", "X", "second", 2, true⟩

def c4A : BankStatement := ⟨{ opening_balance := 10 }, [c4tA], {}⟩

def c4B : BankStatement := ⟨{ opening_balance := 20 }, [c4tB], {}⟩

def c4empty : Store := ⟨none, [], none⟩

def c4wt1 : Transaction := ⟨"01.03.2024", "", "P", "stored", 3, true⟩

def c4wt2 : Transaction := ⟨"02.03.2024", "", "X", "shared", 4, true⟩

def c4wt3 : Transaction := ⟨"03.03.2024", "", "Z", "only-b", 6, false⟩

def c4wstore : Store := ⟨none, [("P", c4wt1)], none⟩

def c4wA : BankStatement := ⟨{ opening_balance := 10 }, [c4wt2], {}⟩

def c4wB : BankStatement := ⟨{ opening_balance := 10 }, [c4wt2, c4wt3], {}⟩

def c5good : List (Option String) := [some "01.03.2024 14:22:01", some "doc-9", some "desc", some "+ 3 ₽"]

def c5bad : List (Option String) := [some "Дата операции", some "x", some "y", some "z"]

def c6h : StatementHeader := { period_from := "05.02.2024", period_to := "15.02.2024" }

def c6store : Store := ⟨some c6h, [], none⟩

def c6snapEmpty : BankStatement := ⟨{}, [], {}⟩

def c6snap : BankStatement := ⟨{ period_from := "01.02.2024", period_to := "10.02.2024" }, [], {}⟩

def c8row : List (Option String) := [some "01.03.2024 14:22:01", some "doc-1", some "+ 1.00 ₽", some ""]

def c8good : List (Option String) := [some "02.03.2024", some "doc-2", some "desc", some "+ 2 ₽"]

def c8goodTxn : Transaction :=
  ⟨"02.03.2024", "", "doc-2", "desc", ((2 : ℕ) : ℚ), true⟩

def c9t1 : Transaction := ⟨"01.03.2024", "10:00:00", "a", "first", 1, true⟩

def c9t2 : Transaction := ⟨"02.03.2024", "09:00:00", "b", "second", 2, false⟩

def c9store : Store := ⟨none, [("a", c9t1), ("b", c9t2)], none⟩

def c9view : BankStatement := ⟨{}, [c9t2, c9t1], {}⟩

def c10h : StatementHeader := { owner := "Old Owner", currency := "RUB", opening_balance := 7 }

def c10store : Store := ⟨some c10h, [], none⟩

def c10snap : BankStatement :=
  ⟨{ owner := "New Owner", account_number := "40912345", document_number := "Ф-9" }, [], {}⟩

/- Lemmas about the association-list transaction mapping. -/

theorem alookup_append (d : String) (l₁ l₂ : List (String × Transaction)) :
    alookup d (l₁ ++ l₂) = (alookup d l₁).or (alookup d l₂) := by
  induction l₁ with
  | nil => simp [alookup]
  | cons e t ih =>
    obtain ⟨k, v⟩ := e
    by_cases h : k = d <;> simp [alookup, h, ih]

theorem alookup_eq_none_iff (d : String) (l : List (String × Transaction)) :
    alookup d l = none ↔ d ∉ l.map Prod.fst := by
  induction l with
  | nil => simp [alookup]
  | cons e t ih =>
    obtain ⟨k, v⟩ := e
    by_cases h : k = d
    · subst h
      simp [alookup]
    · simp only [alookup, if_neg h, List.map_cons, List.mem_cons]
      rw [ih]
      constructor
      · rintro hn (hc | hc)
        · exact h hc.symm
        · exact hn hc
      · exact fun hn hc => hn (Or.inr hc)

theorem mem_of_alookup_eq_some {d : String} {v : Transaction}
    {l : List (String × Transaction)} (h : alookup d l = some v) : (d, v) ∈ l := by
  induction l with
  | nil => simp [alookup] at h
  | cons e t ih =>
    obtain ⟨k, w⟩ := e
    by_cases hk : k = d
    · subst hk
      simp [alookup] at h
      simp [h]
    · simp only [alookup, if_neg hk] at h
      exact List.mem_cons_of_mem _ (ih h)

theorem alookup_eq_some_of_mem {d : String} {v : Transaction}
    {l : List (String × Transaction)} (hnd : (l.map Prod.fst).Nodup)
    (h : (d, v) ∈ l) : alookup d l = some v := by
  induction l with
  | nil => simp at h
  | cons e t ih =>
    obtain ⟨k, w⟩ := e
    simp only [List.map_cons, List.nodup_cons] at hnd
    rcases List.mem_cons.mp h with h1 | h1
    · obtain ⟨hk, hv⟩ := Prod.mk.injEq .. ▸ h1
      simp [alookup, hk.symm, hv]
    · have hkd : k ≠ d := by
        intro hk
        subst hk
        exact hnd.1 (List.mem_map.mpr ⟨(k, v), h1, rfl⟩)
      simp [alookup, hkd, ih hnd.2 h1]

/-- The transaction mapping after the merge loop: an existing key keeps
its value, a new key gets the first snapshot transaction carrying it. -/
theorem mergeTxnList_alookup (d : String) (txns : List (String × Transaction))
    (ts : List Transaction) :
    alookup d (mergeTxnList txns ts).1 =
      (alookup d txns).or (ts.find? (fun t => t.document == d)) := by
  induction ts generalizing txns with
  | nil => cases h : alookup d txns <;> simp [mergeTxnList, h]
  | cons t ts ih =>
    by_cases hd : t.document = d
    · subst hd
      cases h : alookup t.document txns with
      | some v => simp [mergeTxnList, h, ih, List.find?_cons, alookup_append, alookup]
      | none =>
        simp only [mergeTxnList, h, ih, alookup_append, alookup, if_pos rfl]
        simp [List.find?_cons]
    · have hbe : (t.document == d) = false := by simp [hd]
      cases h : alookup t.document txns with
      | some v => simp [mergeTxnList, h, ih, List.find?_cons, hbe]
      | none =>
        simp only [mergeTxnList, h, ih, alookup_append, alookup, if_neg hd]
        simp [List.find?_cons, hbe]

/-- The merge loop preserves key uniqueness of the mapping. -/
theorem mergeTxnList_nodup {txns : List (String × Transaction)}
    (ts : List Transaction) (hnd : (txns.map Prod.fst).Nodup) :
    ((mergeTxnList txns ts).1.map Prod.fst).Nodup := by
  induction ts generalizing txns with
  | nil => simpa [mergeTxnList]
  | cons t ts ih =>
    cases h : alookup t.document txns with
    | some v => simpa [mergeTxnList, h] using ih hnd
    | none =>
      have hmem : t.document ∉ txns.map Prod.fst := (alookup_eq_none_iff _ _).mp h
      have : ((txns ++ [(t.document, t)]).map Prod.fst).Nodup := by
        rw [List.map_append]
        exact (List.perm_append_singleton _ _).nodup_iff.mpr (List.nodup_cons.mpr ⟨hmem, hnd⟩)
      simpa [mergeTxnList, h] using ih this

/-- A merge in which every snapshot document id is already a key inserts
nothing and leaves the mapping unchanged. -/
theorem mergeTxnList_skip {txns : List (String × Transaction)}
    {ts : List Transaction} (h : ∀ t ∈ ts, (alookup t.document txns).isSome) :
    mergeTxnList txns ts = (txns, 0) := by
  induction ts with
  | nil => rfl
  | cons t ts ih =>
    have ht := h t (List.mem_cons_self t ts)
    cases hl : alookup t.document txns with
    | none => rw [hl] at ht; simp at ht
    | some v =>
      simp only [mergeTxnList, hl]
      exact ih fun u hu => h u (List.mem_cons_of_mem _ hu)

/-- After the merge loop, every snapshot document id is a key. -/
theorem mergeTxnList_mem_isSome {txns : List (String × Transaction)}
    {ts : List Transaction} {t : Transaction} (ht : t ∈ ts) :
    (alookup t.document (mergeTxnList txns ts).1).isSome := by
  rw [mergeTxnList_alookup]
  have : (ts.find? (fun u => u.document == t.document)).isSome := by
    rw [List.find?_isSome]
    exact ⟨t, ht, by simp⟩
  cases h : alookup t.document txns with
  | some v => simp
  | none =>
    cases hf : ts.find? (fun u => u.document == t.document) with
    | none => rw [hf] at this; simp at this
    | some u => simp [hf]

/-- Merging two snapshots one after the other produces the same mapping
as one merge of the concatenated transaction lists. -/
theorem mergeTxnList_comp (txns : List (String × Transaction))
    (as bs : List Transaction) :
    (mergeTxnList (mergeTxnList txns as).1 bs).1 = (mergeTxnList txns (as ++ bs)).1 := by
  induction as generalizing txns with
  | nil => rfl
  | cons a as ih =>
    cases h : alookup a.document txns with
    | some v => simp [mergeTxnList, h, ih]
    | none => simp [mergeTxnList, h, ih]

/- Extensionality: two mappings with unique keys and the same lookup
function are permutations of one another. -/

theorem nodupkeys_value_eq {l : List (String × Transaction)} {d : String}
    {v w : Transaction} (hnd : (l.map Prod.fst).Nodup)
    (hv : (d, v) ∈ l) (hw : (d, w) ∈ l) : v = w := by
  have h1 := alookup_eq_some_of_mem hnd hv
  have h2 := alookup_eq_some_of_mem hnd hw
  rw [h1] at h2
  exact (Option.some.injEq .. ▸ h2)

theorem perm_of_alookup_eq {l₁ l₂ : List (String × Transaction)}
    (h₁ : (l₁.map Prod.fst).Nodup) (h₂ : (l₂.map Prod.fst).Nodup)
    (h : ∀ d, alookup d l₁ = alookup d l₂) : l₁.Perm l₂ := by
  induction l₁ generalizing l₂ with
  | nil =>
    cases l₂ with
    | nil => exact List.Perm.refl _
    | cons e t =>
      obtain ⟨k, v⟩ := e
      have := (h k).symm
      simp [alookup] at this
  | cons e t ih =>
    obtain ⟨k, v⟩ := e
    have hk2 : alookup k l₂ = some v := by
      rw [← h k]; simp [alookup]
    have hmem : (k, v) ∈ l₂ := mem_of_alookup_eq_some hk2
    rcases List.append_of_mem hmem with ⟨xs, ys, hsplit⟩
    subst hsplit
    have hperm2 : (xs ++ (k, v) :: ys).Perm ((k, v) :: (xs ++ ys)) := List.perm_middle
    simp only [List.map_cons, List.nodup_cons] at h₁
    have hsub : (xs ++ ys).Sublist (xs ++ (k, v) :: ys) :=
      List.Sublist.append_left (List.sublist_cons_self _ _) _
    have hnd' : ((xs ++ ys).map Prod.fst).Nodup := (hsub.map Prod.fst).nodup h₂
    have hknot : k ∉ (xs ++ ys).map Prod.fst := by
      intro hk
      have h₂' := h₂
      rw [List.map_append, List.map_cons, List.nodup_append] at h₂'
      rw [List.map_append, List.mem_append] at hk
      rcases hk with hk | hk
      · exact h₂'.2.2 hk (List.mem_cons_self _ _)
      · exact (List.nodup_cons.mp h₂'.2.1).1 hk
    have hlook : ∀ d, alookup d t = alookup d (xs ++ ys) := by
      intro d
      by_cases hd : d = k
      · subst hd
        rw [(alookup_eq_none_iff _ _).mpr h₁.1, (alookup_eq_none_iff _ _).mpr hknot]
      · have hstep : alookup d ((k, v) :: t) = alookup d t := by
          show (if k = d then some v else alookup d t) = alookup d t
          rw [if_neg (fun hc : k = d => hd hc.symm)]
        rw [← hstep, h d, alookup_append, alookup_append]
        have : alookup d ((k, v) :: ys) = alookup d ys := by
          show (if k = d then some v else alookup d ys) = alookup d ys
          rw [if_neg (fun hc : k = d => hd hc.symm)]
        rw [this]
    exact ((ih h₁.2 hnd' hlook).cons (k, v)).trans hperm2.symm

/- Totals of the merged mapping. -/

theorem totalsOf_foldl (l : List (String × Transaction)) (c d : ℚ) :
    l.foldl (fun acc e => if e.2.is_credit then (acc.1 + e.2.amount, acc.2)
      else (acc.1, acc.2 + e.2.amount)) (c, d) =
    (c + ((l.filter (fun e => e.2.is_credit)).map (fun e => e.2.amount)).sum,
     d + ((l.filter (fun e => !e.2.is_credit)).map (fun e => e.2.amount)).sum) := by
  induction l generalizing c d with
  | nil => simp
  | cons e t ih =>
    cases he : e.2.is_credit <;>
      simp [List.filter_cons, he, ih, add_assoc]

/-- The running totals are the sums of the credit-flagged and the
debit-flagged amounts. -/
theorem totalsOf_eq_sums (l : List (String × Transaction)) :
    totalsOf l =
      (((l.filter (fun e => e.2.is_credit)).map (fun e => e.2.amount)).sum,
       ((l.filter (fun e => !e.2.is_credit)).map (fun e => e.2.amount)).sum) := by
  have := totalsOf_foldl l 0 0
  simpa [totalsOf] using this

theorem totalsOf_perm {l₁ l₂ : List (String × Transaction)} (h : l₁.Perm l₂) :
    totalsOf l₁ = totalsOf l₂ := by
  rw [totalsOf_eq_sums, totalsOf_eq_sums]
  exact congrArg₂ Prod.mk ((h.filter _).map _).sum_eq ((h.filter _).map _).sum_eq

/- Order facts about the code-point comparison and the view sort key. -/

theorem lexLt_irrefl (l : List Char) : lexLt l l = false := by
  induction l with
  | nil => rfl
  | cons a as ih => simp [lexLt, lt_irrefl, ih]

theorem lexLt_trans : ∀ {a b c : List Char},
    lexLt a b = true → lexLt b c = true → lexLt a c = true := by
  intro a
  induction a with
  | nil =>
    intro b c h1 h2
    cases b with
    | nil => simp [lexLt] at h1
    | cons y ys =>
      cases c with
      | nil => simp [lexLt] at h2
      | cons z zs => rfl
  | cons x xs ih =>
    intro b c h1 h2
    cases b with
    | nil => simp [lexLt] at h1
    | cons y ys =>
      cases c with
      | nil => simp [lexLt] at h2
      | cons z zs =>
        simp only [lexLt] at h1 h2 ⊢
        rcases lt_trichotomy x y with hxy | hxy | hxy
        · rcases lt_trichotomy y z with hyz | hyz | hyz
          · rw [if_pos (hxy.trans hyz)]
          · subst hyz; rw [if_pos hxy]
          · rw [if_neg (asymm hyz), if_pos hyz] at h2; exact absurd h2 (by simp)
        · subst hxy
          rw [if_neg (lt_irrefl x), if_neg (lt_irrefl x)] at h1
          rcases lt_trichotomy x z with hxz | hxz | hxz
          · rw [if_pos hxz]
          · subst hxz
            rw [if_neg (lt_irrefl x), if_neg (lt_irrefl x)] at h2 ⊢
            exact ih h1 h2
          · rw [if_neg (asymm hxz), if_pos hxz] at h2; exact absurd h2 (by simp)
        · rw [if_neg (asymm hxy), if_pos hxy] at h1; exact absurd h1 (by simp)

theorem lexLt_conn : ∀ {a b : List Char},
    lexLt a b = false → lexLt b a = false → a = b := by
  intro a
  induction a with
  | nil =>
    intro b h1 h2
    cases b with
    | nil => rfl
    | cons y ys => simp [lexLt] at h1
  | cons x xs ih =>
    intro b h1 h2
    cases b with
    | nil => simp [lexLt] at h2
    | cons y ys =>
      simp only [lexLt] at h1 h2
      rcases lt_trichotomy x y with hxy | hxy | hxy
      · rw [if_pos hxy] at h1; exact absurd h1 (by simp)
      · subst hxy
        rw [if_neg (lt_irrefl x), if_neg (lt_irrefl x)] at h1 h2
        rw [ih h1 h2]
      · rw [if_pos hxy] at h2; exact absurd h2 (by simp)

theorem lexLt_asymm {a b : List Char} (h : lexLt a b = true) : lexLt b a = false := by
  cases hc : lexLt b a
  · rfl
  · have := lexLt_trans h hc
    rw [lexLt_irrefl] at this
    exact absurd this (by simp)

theorem string_eq_of_data {s t : String} (h : s.data = t.data) : s = t := by
  cases s; cases t; exact congrArg String.mk h

theorem keyLtB_irrefl (x : String × String) : keyLtB x x = false := by
  simp [keyLtB, lexLt_irrefl]

theorem keyLtB_trans {x y z : String × String}
    (h1 : keyLtB x y = true) (h2 : keyLtB y z = true) : keyLtB x z = true := by
  simp only [keyLtB, Bool.or_eq_true, Bool.and_eq_true, beq_iff_eq] at h1 h2 ⊢
  rcases h1 with h1 | ⟨h1e, h1l⟩
  · rcases h2 with h2 | ⟨h2e, h2l⟩
    · exact Or.inl (lexLt_trans h1 h2)
    · exact Or.inl (by rw [← h2e]; exact h1)
  · rcases h2 with h2 | ⟨h2e, h2l⟩
    · exact Or.inl (by rw [h1e]; exact h2)
    · exact Or.inr ⟨h1e.trans h2e, lexLt_trans h1l h2l⟩

theorem keyLtB_conn {x y : String × String}
    (h1 : keyLtB x y = false) (h2 : keyLtB y x = false) : x = y := by
  have hxy1 : lexLt x.1.data y.1.data = false := by
    cases hc : lexLt x.1.data y.1.data
    · rfl
    · rw [keyLtB, hc] at h1; simp at h1
  have hyx1 : lexLt y.1.data x.1.data = false := by
    cases hc : lexLt y.1.data x.1.data
    · rfl
    · rw [keyLtB, hc] at h2; simp at h2
  have e1 : x.1 = y.1 := string_eq_of_data (lexLt_conn hxy1 hyx1)
  have hxy2 : lexLt x.2.data y.2.data = false := by
    cases hc : lexLt x.2.data y.2.data
    · rfl
    · rw [keyLtB, hxy1, hc, e1] at h1; simp at h1
  have hyx2 : lexLt y.2.data x.2.data = false := by
    cases hc : lexLt y.2.data x.2.data
    · rfl
    · rw [keyLtB, hyx1, hc, e1] at h2; simp at h2
  have e2 : x.2 = y.2 := string_eq_of_data (lexLt_conn hxy2 hyx2)
  exact Prod.ext e1 e2

theorem viewLe_total (a b : Transaction) : viewLe a b = true ∨ viewLe b a = true := by
  cases h1 : keyLtB (txnSortKey a) (txnSortKey b)
  · exact Or.inl (by simp [viewLe, h1])
  · cases h2 : keyLtB (txnSortKey b) (txnSortKey a)
    · exact Or.inr (by simp [viewLe, h2])
    · have := keyLtB_trans h1 h2
      rw [keyLtB_irrefl] at this
      exact absurd this (by simp)

theorem viewLe_trans {a b c : Transaction}
    (h1 : viewLe a b = true) (h2 : viewLe b c = true) : viewLe a c = true := by
  simp only [viewLe, Bool.not_eq_true'] at h1 h2 ⊢
  cases hac : keyLtB (txnSortKey a) (txnSortKey c)
  · rfl
  · exfalso
    cases hba : keyLtB (txnSortKey b) (txnSortKey a)
    · have he := keyLtB_conn h1 hba
      rw [he] at hac
      rw [hac] at h2
      simp at h2
    · have := keyLtB_trans hba hac
      rw [this] at h2
      simp at h2

/- The stable insertion sort of the view projection. -/

theorem insSorted_perm (le : α → α → Bool) (x : α) (l : List α) :
    (insSorted le x l).Perm (x :: l) := by
  induction l with
  | nil => exact List.Perm.refl _
  | cons y ys ih =>
    by_cases h : le x y = true
    · rw [insSorted, if_pos h]
    · rw [insSorted, if_neg h]
      exact (ih.cons y).trans (List.Perm.swap x y ys)

theorem sortByLe_perm (le : α → α → Bool) (l : List α) : (sortByLe le l).Perm l := by
  induction l with
  | nil => exact List.Perm.refl _
  | cons x xs ih =>
    exact (insSorted_perm le x (sortByLe le xs)).trans (ih.cons x)

theorem insSorted_pairwise {le : α → α → Bool}
    (htot : ∀ a b, le a b = true ∨ le b a = true)
    (htr : ∀ {a b c}, le a b = true → le b c = true → le a c = true)
    (x : α) {l : List α} (hp : l.Pairwise (fun a b => le a b = true)) :
    (insSorted le x l).Pairwise (fun a b => le a b = true) := by
  induction l with
  | nil => simp [insSorted]
  | cons y ys ih =>
    rcases List.pairwise_cons.mp hp with ⟨hy, hys⟩
    by_cases h : le x y = true
    · rw [insSorted, if_pos h]
      refine List.pairwise_cons.mpr ⟨?_, hp⟩
      intro z hz
      rcases List.mem_cons.mp hz with rfl | hz
      · exact h
      · exact htr h (hy z hz)
    · rw [insSorted, if_neg h]
      refine List.pairwise_cons.mpr ⟨?_, ih hys⟩
      intro z hz
      rcases List.mem_cons.mp ((insSorted_perm le x ys).mem_iff.mp hz) with hzx | hz2
      · rw [hzx]
        exact (htot x y).resolve_left h
      · exact hy z hz2

theorem sortByLe_pairwise {le : α → α → Bool}
    (htot : ∀ a b, le a b = true ∨ le b a = true)
    (htr : ∀ {a b c}, le a b = true → le b c = true → le a c = true)
    (l : List α) : (sortByLe le l).Pairwise (fun a b => le a b = true) := by
  induction l with
  | nil => simp [sortByLe]
  | cons x xs ih => exact insSorted_pairwise htot htr x ih

/- The date rewrite is empty only on the empty string. -/

theorem dmy_to_sortable_eq_empty_iff (s : String) : dmy_to_sortable s = "" ↔ s = "" := by
  constructor
  · intro h
    unfold dmy_to_sortable at h
    split at h
    · exact absurd (congrArg String.data h) (by simp)
    · exact h
  · rintro rfl; rfl

/-- Header reconciliation never touches the opening balance. -/
theorem mergeHeader_opening_balance (a b : StatementHeader) :
    (mergeHeader a b).opening_balance = a.opening_balance := by
  unfold mergeHeader
  dsimp only
  split <;> split <;> rfl

/-- Period lower bound reconciliation of mergeHeader, as a function of
the two headers. -/
theorem mergeHeader_period_from (a b : StatementHeader) :
    (mergeHeader a b).period_from =
      if dmy_to_sortable b.period_from ≠ "" ∧ (dmy_to_sortable a.period_from = "" ∨
        lexLt (dmy_to_sortable b.period_from).data (dmy_to_sortable a.period_from).data)
      then b.period_from else a.period_from := by
  unfold mergeHeader
  dsimp only
  split <;> try rfl
  all_goals split <;> try rfl

/-- Period upper bound reconciliation of mergeHeader, as a function of
the two headers. -/
theorem mergeHeader_period_to (a b : StatementHeader) :
    (mergeHeader a b).period_to =
      if dmy_to_sortable b.period_to ≠ "" ∧ (dmy_to_sortable a.period_to = "" ∨
        lexLt (dmy_to_sortable a.period_to).data (dmy_to_sortable b.period_to).data)
      then b.period_to else a.period_to := by
  unfold mergeHeader
  dsimp only
  by_cases h1 : dmy_to_sortable b.period_from ≠ "" ∧ (dmy_to_sortable a.period_from = "" ∨
      lexLt (dmy_to_sortable b.period_from).data (dmy_to_sortable a.period_from).data)
  · rw [if_pos h1]
    try dsimp only
    split <;> rfl
  · rw [if_neg h1]
    try dsimp only
    split <;> rfl

theorem mergeHeader_owner (a b : StatementHeader) :
    (mergeHeader a b).owner = if b.owner ≠ "" then b.owner else a.owner := by
  unfold mergeHeader
  dsimp only
  split <;> try rfl
  all_goals split <;> try rfl
  all_goals split <;> rfl

theorem mergeHeader_account_number (a b : StatementHeader) :
    (mergeHeader a b).account_number =
      if b.account_number ≠ "" then b.account_number else a.account_number := by
  unfold mergeHeader
  dsimp only
  split <;> try rfl
  all_goals split <;> try rfl
  all_goals split <;> rfl

theorem mergeHeader_account_opened (a b : StatementHeader) :
    (mergeHeader a b).account_opened =
      if b.account_opened ≠ "" then b.account_opened else a.account_opened := by
  unfold mergeHeader
  dsimp only
  split <;> try rfl
  all_goals split <;> try rfl
  all_goals split <;> rfl

theorem mergeHeader_currency (a b : StatementHeader) :
    (mergeHeader a b).currency = if b.currency ≠ "" then b.currency else a.currency := by
  unfold mergeHeader
  dsimp only
  split <;> try rfl
  all_goals split <;> try rfl
  all_goals split <;> rfl

theorem mergeHeader_document_number (a b : StatementHeader) :
    (mergeHeader a b).document_number =
      if b.document_number ≠ "" then b.document_number else a.document_number := by
  unfold mergeHeader
  dsimp only
  split <;> try rfl
  all_goals split <;> try rfl
  all_goals split <;> rfl

theorem mergeHeader_document_date (a b : StatementHeader) :
    (mergeHeader a b).document_date =
      if b.document_date ≠ "" then b.document_date else a.document_date := by
  unfold mergeHeader
  dsimp only
  split <;> try rfl
  all_goals split <;> try rfl
  all_goals split <;> rfl

theorem mergeHeader_generated_at (a b : StatementHeader) :
    (mergeHeader a b).generated_at =
      if b.generated_at ≠ "" then b.generated_at else a.generated_at := by
  unfold mergeHeader
  dsimp only
  split <;> try rfl
  all_goals split <;> try rfl
  all_goals split <;> rfl

/- Structural equations of merge_statement. -/

theorem merge_statement_transactions_eq (store : Store) (s : BankStatement) :
    (merge_statement store s).1.transactions =
      (mergeTxnList store.transactions s.transactions).1 := rfl

theorem merge_statement_count_eq (store : Store) (s : BankStatement) :
    (merge_statement store s).2 = (mergeTxnList store.transactions s.transactions).2 := rfl

theorem merge_statement_header_eq (store : Store) (s : BankStatement) :
    (merge_statement store s).1.header = some (match store.header with
      | none => s.header
      | some h0 => mergeHeader h0 s.header) := rfl

theorem merge_statement_footer_eq (store : Store) (s : BankStatement) :
    (merge_statement store s).1.footer = some {
      total_credits := round2 (totalsOf (merge_statement store s).1.transactions).1,
      total_debits := round2 (totalsOf (merge_statement store s).1.transactions).2,
      closing_balance := round2
        (((merge_statement store s).1.header.getD {}).opening_balance +
          (totalsOf (merge_statement store s).1.transactions).1 -
          (totalsOf (merge_statement store s).1.transactions).2) } := rfl

/-- Claim C1: after merge_statement the transaction mapping has unique
document-id keys, and a document id already present keeps its stored
transaction unchanged, whatever the snapshot transaction carrying that id
looks like. -/
theorem merge_dedup_first_seen (store : Store) (s : BankStatement)
    (hnd : (store.transactions.map Prod.fst).Nodup) :
    ((merge_statement store s).1.transactions.map Prod.fst).Nodup ∧
    ∀ d t, alookup d store.transactions = some t →
      alookup d (merge_statement store s).1.transactions = some t := by
  constructor
  · rw [merge_statement_transactions_eq]
    exact mergeTxnList_nodup s.transactions hnd
  · intro d t h
    rw [merge_statement_transactions_eq, mergeTxnList_alookup, h]
    rfl

/-- Witness for claim C1 at a concrete overlapping store and snapshot. -/
theorem merge_dedup_first_seen_witness :
    ((merge_statement c1store c1snap).1.transactions.map Prod.fst).Nodup ∧
    alookup "X" (merge_statement c1store c1snap).1.transactions = some c1stored := by
  have h := merge_dedup_first_seen c1store c1snap (by decide)
  exact ⟨h.1, h.2 "X" c1stored (by decide)⟩

/-- Claim C2: merging the same snapshot a second time counts zero new
transactions and returns the transaction mapping unchanged. -/
theorem merge_idempotent (store : Store) (s : BankStatement) :
    (merge_statement (merge_statement store s).1 s).2 = 0 ∧
    (merge_statement (merge_statement store s).1 s).1.transactions =
      (merge_statement store s).1.transactions := by
  have hskip : mergeTxnList (merge_statement store s).1.transactions s.transactions =
      ((merge_statement store s).1.transactions, 0) := by
    apply mergeTxnList_skip
    intro t ht
    rw [merge_statement_transactions_eq]
    exact mergeTxnList_mem_isSome ht
  constructor
  · rw [merge_statement_count_eq, hskip]
  · rw [merge_statement_transactions_eq (merge_statement store s).1 s, hskip]

/-- Claim C3: the recomputed footer of every merged ledger: total credits
and total debits are the rounded sums of the credit-flagged and
debit-flagged amounts of the merged mapping, and the closing balance is
the rounded value of opening balance plus credits minus debits. -/
theorem merge_footer_totals (store : Store) (s : BankStatement) :
    ∃ h, (merge_statement store s).1.header = some h ∧
      (merge_statement store s).1.footer = some {
        total_credits := round2 ((((merge_statement store s).1.transactions.filter
          (fun e => e.2.is_credit)).map (fun e => e.2.amount)).sum),
        total_debits := round2 ((((merge_statement store s).1.transactions.filter
          (fun e => !e.2.is_credit)).map (fun e => e.2.amount)).sum),
        closing_balance := round2 (h.opening_balance +
          (((merge_statement store s).1.transactions.filter
            (fun e => e.2.is_credit)).map (fun e => e.2.amount)).sum -
          (((merge_statement store s).1.transactions.filter
            (fun e => !e.2.is_credit)).map (fun e => e.2.amount)).sum) } := by
  refine ⟨_, rfl, ?_⟩
  rw [merge_statement_footer_eq, totalsOf_eq_sums]
  rfl

/-- Claim C4 counterexample: two snapshots that share a document id with
different transaction data (and different opening balances) merged in the
two orders give different mappings and different footers, refuting
order-independence as stated. -/
theorem merge_not_order_independent :
    ((alookup "X" (merge_statement (merge_statement c4empty c4A).1 c4B).1.transactions).map
        Transaction.description ≠
      (alookup "X" (merge_statement (merge_statement c4empty c4B).1 c4A).1.transactions).map
        Transaction.description) ∧
    (merge_statement (merge_statement c4empty c4A).1 c4B).1.footer ≠
      (merge_statement (merge_statement c4empty c4B).1 c4A).1.footer := by
  constructor
  · decide
  · intro h
    have h1 : (some (round2 ((0 : ℚ) + 1)) : Option ℚ) = some (round2 ((0 : ℚ) + 2)) :=
      congrArg (fun o => o.map StatementFooter.total_credits) h
    have h2 := Option.some.inj h1
    unfold round2 at h2
    rw [round_eq, round_eq] at h2
    norm_num at h2

/-- Claim C4 amended: when the two snapshots agree on every shared
document id and carry equal opening balances, merge order does not matter
for the resulting mapping (as a lookup function) or the footer. -/
theorem merge_order_independent_of_agreeing (store : Store) (A B : BankStatement)
    (hnd : (store.transactions.map Prod.fst).Nodup)
    (hagree : ∀ ta ∈ A.transactions, ∀ tb ∈ B.transactions,
      ta.document = tb.document → ta = tb)
    (hob : A.header.opening_balance = B.header.opening_balance) :
    (∀ d, alookup d (merge_statement (merge_statement store A).1 B).1.transactions =
          alookup d (merge_statement (merge_statement store B).1 A).1.transactions) ∧
    (merge_statement (merge_statement store A).1 B).1.footer =
      (merge_statement (merge_statement store B).1 A).1.footer := by
  have hAB : (merge_statement (merge_statement store A).1 B).1.transactions =
      (mergeTxnList store.transactions (A.transactions ++ B.transactions)).1 := by
    rw [merge_statement_transactions_eq, merge_statement_transactions_eq]
    exact mergeTxnList_comp _ _ _
  have hBA : (merge_statement (merge_statement store B).1 A).1.transactions =
      (mergeTxnList store.transactions (B.transactions ++ A.transactions)).1 := by
    rw [merge_statement_transactions_eq, merge_statement_transactions_eq]
    exact mergeTxnList_comp _ _ _
  have hlook : ∀ d, alookup d (merge_statement (merge_statement store A).1 B).1.transactions =
      alookup d (merge_statement (merge_statement store B).1 A).1.transactions := by
    intro d
    rw [hAB, hBA, mergeTxnList_alookup, mergeTxnList_alookup]
    congr 1
    rw [List.find?_append, List.find?_append]
    cases hfa : A.transactions.find? (fun t => t.document == d) with
    | none =>
      cases hfb : B.transactions.find? (fun t => t.document == d) with
      | none => rfl
      | some tb => rfl
    | some ta =>
      cases hfb : B.transactions.find? (fun t => t.document == d) with
      | none => rfl
      | some tb =>
        have hta := List.mem_of_find?_eq_some hfa
        have htb := List.mem_of_find?_eq_some hfb
        have hpa := List.find?_some hfa
        have hpb := List.find?_some hfb
        have heq : ta = tb := by
          refine hagree ta hta tb htb ?_
          have e1 : ta.document = d := by simpa using hpa
          have e2 : tb.document = d := by simpa using hpb
          rw [e1, e2]
        rw [heq]
  refine ⟨hlook, ?_⟩
  have hndAB : ((merge_statement (merge_statement store A).1 B).1.transactions.map Prod.fst).Nodup := by
    rw [hAB]; exact mergeTxnList_nodup _ hnd
  have hndBA : ((merge_statement (merge_statement store B).1 A).1.transactions.map Prod.fst).Nodup := by
    rw [hBA]; exact mergeTxnList_nodup _ hnd
  have hperm := perm_of_alookup_eq hndAB hndBA hlook
  have htot := totalsOf_perm hperm
  have hopen : ((merge_statement (merge_statement store A).1 B).1.header.getD {}).opening_balance =
      ((merge_statement (merge_statement store B).1 A).1.header.getD {}).opening_balance := by
    rw [merge_statement_header_eq (merge_statement store A).1 B,
        merge_statement_header_eq (merge_statement store B).1 A,
        merge_statement_header_eq store A, merge_statement_header_eq store B]
    cases store.header with
    | none => simpa [mergeHeader_opening_balance] using hob
    | some h0 => simp [mergeHeader_opening_balance]
  rw [merge_statement_footer_eq, merge_statement_footer_eq, htot, hopen]

/-- Witness for the amended claim C4 at concrete agreeing snapshots. -/
theorem merge_order_independent_of_agreeing_witness :
    (alookup "X" (merge_statement (merge_statement c4wstore c4wA).1 c4wB).1.transactions =
      alookup "X" (merge_statement (merge_statement c4wstore c4wB).1 c4wA).1.transactions) ∧
    (merge_statement (merge_statement c4wstore c4wA).1 c4wB).1.footer =
      (merge_statement (merge_statement c4wstore c4wB).1 c4wA).1.footer := by
  have h := merge_order_independent_of_agreeing c4wstore c4wA c4wB
    (by decide) (by decide) (by decide)
  exact ⟨h.1 "X", h.2⟩

/-- Claim C5 counterexample: a document that opens but yields no
parseable pages (zero pages) parses to an ok empty statement, not to an
extraction error. -/
theorem parse_pdf_no_pages_ok :
    parse_ozon_bank_pdf (some []) =
      Except.ok { header := {}, transactions := [], footer := {} } := rfl

/-- Claim C5 amended: extraction fails exactly when the document cannot
be opened; a document that opens never fails, whatever its pages hold,
and a malformed row is skipped while the rows around it are still
extracted. -/
theorem parse_pdf_error_only_unopenable :
    (∃ e, parse_ozon_bank_pdf none = Except.error e) ∧
    (∀ pages, parse_ozon_bank_pdf (some pages) = Except.ok
      { header := parse_header_text (joinNL (pages.map (fun p => p.text.getD ""))),
        footer := parse_footer_text (joinNL (pages.map (fun p => p.text.getD ""))),
        transactions := parse_transactions_from_tables pages }) ∧
    (∀ pre r post, rowToTxn r = none →
      tableTxns (pre ++ r :: post) = tableTxns (pre ++ post)) := by
  refine ⟨⟨"cannot open document", rfl⟩, fun pages => rfl, ?_⟩
  intro pre r post hr
  unfold tableTxns
  simp [List.filterMap_append, List.filterMap_cons, hr]

/-- Witness for the amended claim C5: a malformed row between good rows
changes nothing. -/
theorem parse_pdf_error_only_unopenable_witness :
    rowToTxn c5bad = none ∧
    tableTxns ([c5good] ++ c5bad :: [c5good]) = tableTxns ([c5good] ++ [c5good]) :=
  ⟨by decide, parse_pdf_error_only_unopenable.2.2 [c5good] c5bad [c5good] (by decide)⟩

/-- Claim C6 counterexample: merging a snapshot whose period_from is
empty keeps the stored value, although under the claim's comparison (a
lexicographic comparison of the yyyy-mm-dd rewrites) the empty rewrite is
strictly smaller, so the stored value is not the chronological minimum as
claimed. -/
theorem period_widening_cx :
    (merge_statement c6store c6snapEmpty).1.header.map StatementHeader.period_from =
      some "05.02.2024" ∧
    c6snapEmpty.header.period_from = "" ∧
    lexLt (dmy_to_sortable c6snapEmpty.header.period_from).data
      (dmy_to_sortable "05.02.2024").data = true ∧
    ("05.02.2024" : String) ≠ dmy_to_sortable c6snapEmpty.header.period_from := by
  refine ⟨by decide, rfl, by decide, by decide⟩

/-- Claim C6 amended: for a non-empty stored header, period_from becomes
the value whose yyyy-mm-dd rewrite is the lexicographic minimum and
period_to the value whose rewrite is the lexicographic maximum, provided
both the stored and the snapshot bound are non-empty; an empty snapshot
bound keeps the stored one, and an empty stored bound adopts the
snapshot's. -/
theorem period_widening (store : Store) (h : StatementHeader) (s : BankStatement)
    (hh : store.header = some h) :
    ∃ h', (merge_statement store s).1.header = some h' ∧
      ((h.period_from ≠ "" ∧ s.header.period_from ≠ "") →
        (h'.period_from = h.period_from ∨ h'.period_from = s.header.period_from) ∧
        lexLt (dmy_to_sortable h.period_from).data (dmy_to_sortable h'.period_from).data = false ∧
        lexLt (dmy_to_sortable s.header.period_from).data (dmy_to_sortable h'.period_from).data = false) ∧
      (s.header.period_from = "" → h'.period_from = h.period_from) ∧
      (h.period_from = "" → h'.period_from = s.header.period_from) ∧
      ((h.period_to ≠ "" ∧ s.header.period_to ≠ "") →
        (h'.period_to = h.period_to ∨ h'.period_to = s.header.period_to) ∧
        lexLt (dmy_to_sortable h'.period_to).data (dmy_to_sortable h.period_to).data = false ∧
        lexLt (dmy_to_sortable h'.period_to).data (dmy_to_sortable s.header.period_to).data = false) ∧
      (s.header.period_to = "" → h'.period_to = h.period_to) ∧
      (h.period_to = "" → h'.period_to = s.header.period_to) := by
  refine ⟨mergeHeader h s.header, by rw [merge_statement_header_eq, hh], ?_, ?_, ?_, ?_, ?_, ?_⟩
  · rintro ⟨hne1, hne2⟩
    have hso : dmy_to_sortable h.period_from ≠ "" :=
      fun hc => hne1 ((dmy_to_sortable_eq_empty_iff _).mp hc)
    have hsn : dmy_to_sortable s.header.period_from ≠ "" :=
      fun hc => hne2 ((dmy_to_sortable_eq_empty_iff _).mp hc)
    rw [mergeHeader_period_from]
    split_ifs with hc
    · rcases hc with ⟨-, hc2 | hc2⟩
      · exact absurd hc2 hso
      · exact ⟨Or.inr rfl, lexLt_asymm hc2, lexLt_irrefl _⟩
    · have hnl : lexLt (dmy_to_sortable s.header.period_from).data
          (dmy_to_sortable h.period_from).data = false := by
        cases hb : lexLt (dmy_to_sortable s.header.period_from).data
            (dmy_to_sortable h.period_from).data
        · rfl
        · exact absurd ⟨hsn, Or.inr hb⟩ hc
      exact ⟨Or.inl rfl, lexLt_irrefl _, hnl⟩
  · intro he
    rw [mergeHeader_period_from]
    have hse : dmy_to_sortable s.header.period_from = "" :=
      (dmy_to_sortable_eq_empty_iff _).mpr he
    rw [if_neg (fun hcon => hcon.1 hse)]
  · intro he
    rw [mergeHeader_period_from]
    have hoe : dmy_to_sortable h.period_from = "" := (dmy_to_sortable_eq_empty_iff _).mpr he
    by_cases hse : s.header.period_from = ""
    · have hsne : dmy_to_sortable s.header.period_from = "" :=
        (dmy_to_sortable_eq_empty_iff _).mpr hse
      rw [if_neg (fun hcon => hcon.1 hsne), he, hse]
    · have hsne : dmy_to_sortable s.header.period_from ≠ "" :=
        fun hcc => hse ((dmy_to_sortable_eq_empty_iff _).mp hcc)
      rw [if_pos ⟨hsne, Or.inl hoe⟩]
  · rintro ⟨hne1, hne2⟩
    have hso : dmy_to_sortable h.period_to ≠ "" :=
      fun hc => hne1 ((dmy_to_sortable_eq_empty_iff _).mp hc)
    have hsn : dmy_to_sortable s.header.period_to ≠ "" :=
      fun hc => hne2 ((dmy_to_sortable_eq_empty_iff _).mp hc)
    rw [mergeHeader_period_to]
    split_ifs with hc
    · rcases hc with ⟨-, hc2 | hc2⟩
      · exact absurd hc2 hso
      · exact ⟨Or.inr rfl, lexLt_asymm hc2, lexLt_irrefl _⟩
    · have hnl : lexLt (dmy_to_sortable h.period_to).data
          (dmy_to_sortable s.header.period_to).data = false := by
        cases hb : lexLt (dmy_to_sortable h.period_to).data
            (dmy_to_sortable s.header.period_to).data
        · rfl
        · exact absurd ⟨hsn, Or.inr hb⟩ hc
      exact ⟨Or.inl rfl, lexLt_irrefl _, hnl⟩
  · intro he
    rw [mergeHeader_period_to]
    have hse : dmy_to_sortable s.header.period_to = "" :=
      (dmy_to_sortable_eq_empty_iff _).mpr he
    rw [if_neg (fun hcon => hcon.1 hse)]
  · intro he
    rw [mergeHeader_period_to]
    have hoe : dmy_to_sortable h.period_to = "" := (dmy_to_sortable_eq_empty_iff _).mpr he
    by_cases hse : s.header.period_to = ""
    · have hsne : dmy_to_sortable s.header.period_to = "" :=
        (dmy_to_sortable_eq_empty_iff _).mpr hse
      rw [if_neg (fun hcon => hcon.1 hsne), he, hse]
    · have hsne : dmy_to_sortable s.header.period_to ≠ "" :=
        fun hcc => hse ((dmy_to_sortable_eq_empty_iff _).mp hcc)
      rw [if_pos ⟨hsne, Or.inl hoe⟩]

/-- Witness for the amended claim C6 at the spec's concrete example:
period 01.02.2024 to 10.02.2024 merged into 05.02.2024 to 15.02.2024
widens to 01.02.2024 to 15.02.2024. -/
theorem period_widening_witness :
    (merge_statement c6store c6snap).1.header.map StatementHeader.period_from =
      some "01.02.2024" ∧
    (merge_statement c6store c6snap).1.header.map StatementHeader.period_to =
      some "15.02.2024" := by
  obtain ⟨h', hh, hfrom, -, -, hto, -, -⟩ := period_widening c6store c6h c6snap rfl
  obtain ⟨hor, -, hlen⟩ := hfrom ⟨by decide, by decide⟩
  obtain ⟨hor2, hleo2, -⟩ := hto ⟨by decide, by decide⟩
  rw [hh]
  constructor
  · rcases hor with heq | heq
    · rw [heq] at hlen
      exact absurd hlen (by decide)
    · rw [Option.map_some', heq]
      rfl
  · rcases hor2 with heq | heq
    · rw [Option.map_some', heq]
      rfl
    · rw [heq] at hleo2
      exact absurd hleo2 (by decide)

/-- Claim C7: the two concrete amount tokens of the spec, the malformed
token yielding 0.0, and in general the credit flag is true exactly when
the stripped token starts with a plus sign.  parse_amount is a total
function by construction. -/
theorem parse_amount_spec :
    parse_amount "+ 6 812.98 ₽" = (6812.98, true) ∧
    parse_amount "- 20 000.00 ₽" = (20000.00, false) ∧
    parse_amount "???" = (0, false) ∧
    (∀ s : String, (parse_amount s).2 = true ↔ (pyStrip s.data).head? = some '+') := by
  refine ⟨?_, ?_, by decide, ?_⟩
  · have h : parse_amount "+ 6 812.98 ₽" =
        (((6812 : ℕ) : ℚ) + ((98 : ℕ) : ℚ) / (10 : ℚ) ^ (2 : ℕ), true) := rfl
    rw [h]
    norm_num
  · have h : parse_amount "- 20 000.00 ₽" =
        (((20000 : ℕ) : ℚ) + ((0 : ℕ) : ℚ) / (10 : ℚ) ^ (2 : ℕ), false) := rfl
    rw [h]
    norm_num
  · intro s
    show ((pyStrip s.data).head? == some '+') = true ↔ (pyStrip s.data).head? = some '+'
    exact beq_iff_eq

/-- Claim C8 counterexample: a four-cell row whose column 3 is empty
while its second-to-last column holds parseable amount text: per the
claim the fallback applies and the row yields a transaction, but the
code's fallback requires at least five cells, so the row is skipped. -/
theorem row_fallback_cx :
    rowToTxn c8row = none ∧
    c8row.length = 4 ∧
    (reMatch rowDateRE (pyStripS ((c8row.getD 0 none).getD "")).data).isSome = true ∧
    pyStripS ((c8row.getD 3 none).getD "") = "" ∧
    pyStripS ((c8row.getD (c8row.length - 2) none).getD "") = "+ 1.00 ₽" := by
  refine ⟨by decide, by decide, by decide, by decide, by decide⟩

/-- Claim C8 amended: a row yields a transaction exactly when it has at
least four cells, its first cell is neither empty nor a known header
label nor contains the amount-column label, the first cell starts with a
dd.mm.yyyy date (optionally followed by hh:mm:ss), and the amount text is
non-empty — where the amount text is column 3, falling back to the
second-to-last column only for rows of at least five cells; and the
produced transaction carries the parse of that amount text under the
document id of column 1. -/
theorem row_extraction_characterization (row : List (Option String)) :
    ((∃ t, rowToTxn row = some t) ↔
      (4 ≤ row.length ∧
       pyStripS ((row.getD 0 none).getD "") ≠ "Дата операции" ∧
       pyStripS ((row.getD 0 none).getD "") ≠ "" ∧
       containsSub "Сумма операции".data (pyStripS ((row.getD 0 none).getD "")).data = false ∧
       (reMatch rowDateRE (pyStripS ((row.getD 0 none).getD "")).data).isSome = true ∧
       rowAmountText row ≠ "")) ∧
    (∀ t, rowToTxn row = some t →
      (t.amount, t.is_credit) = parse_amount (rowAmountText row) ∧
      t.document = pyStripS ((row.getD 1 none).getD "")) := by
  constructor
  · unfold rowToTxn
    by_cases h1 : row.length < 4
    · simp only [if_pos h1]
      constructor
      · rintro ⟨t, ht⟩
        exact Option.noConfusion ht
      · rintro ⟨hlen, -⟩
        omega
    · simp only [if_neg h1]
      by_cases h2 : ((pyStripS ((row.getD 0 none).getD "") == "Дата операции") ||
          (pyStripS ((row.getD 0 none).getD "") == "") ||
          containsSub "Сумма операции".data (pyStripS ((row.getD 0 none).getD "")).data) = true
      · simp only [if_pos h2]
        constructor
        · rintro ⟨t, ht⟩
          exact Option.noConfusion ht
        · rintro ⟨-, hb1, hb2, hb3, -, -⟩
          simp only [Bool.or_eq_true, beq_iff_eq] at h2
          rcases h2 with (hx | hx) | hx
          · exact absurd hx hb1
          · exact absurd hx hb2
          · rw [hb3] at hx
            exact Bool.noConfusion hx
      · simp only [if_neg h2]
        cases hm : reMatch rowDateRE (pyStripS ((row.getD 0 none).getD "")).data with
        | none =>
          constructor
          · rintro ⟨t, ht⟩
            exact Option.noConfusion ht
          · rintro ⟨-, -, -, -, hsome, -⟩
            exact Bool.noConfusion hsome
        | some caps =>
          by_cases h5 : (rowAmountText row == "") = true
          · simp only [if_pos h5]
            constructor
            · rintro ⟨t, ht⟩
              exact Option.noConfusion ht
            · rintro ⟨-, -, -, -, -, hne⟩
              exact absurd (show rowAmountText row = "" by simpa using h5) hne
          · simp only [if_neg h5]
            constructor
            · rintro -
              simp only [Bool.or_eq_true, beq_iff_eq] at h2
              refine ⟨by omega, ?_, ?_, ?_, ?_, ?_⟩
              · exact fun hx => h2 (Or.inl (Or.inl hx))
              · exact fun hx => h2 (Or.inl (Or.inr hx))
              · cases hcs : containsSub "Сумма операции".data
                    (pyStripS ((row.getD 0 none).getD "")).data
                · rfl
                · exact absurd (Or.inr hcs) h2
              · rfl
              · intro hx
                exact h5 (by rw [hx]; rfl)
            · rintro -
              exact ⟨_, rfl⟩
  · intro t ht
    unfold rowToTxn at ht
    by_cases h1 : row.length < 4
    · rw [if_pos h1] at ht
      exact Option.noConfusion ht
    · simp only [if_neg h1] at ht
      by_cases h2 : ((pyStripS ((row.getD 0 none).getD "") == "Дата операции") ||
          (pyStripS ((row.getD 0 none).getD "") == "") ||
          containsSub "Сумма операции".data (pyStripS ((row.getD 0 none).getD "")).data) = true
      · simp only [if_pos h2] at ht
        exact Option.noConfusion ht
      · simp only [if_neg h2] at ht
        revert ht
        cases hm : reMatch rowDateRE (pyStripS ((row.getD 0 none).getD "")).data with
        | none =>
          intro ht
          exact Option.noConfusion ht
        | some caps =>
          intro ht
          dsimp only at ht
          by_cases h5 : (rowAmountText row == "") = true
          · rw [if_pos h5] at ht
            exact Option.noConfusion ht
          · rw [if_neg h5] at ht
            cases Option.some.inj ht
            constructor
            · with_reducible rfl
            · with_reducible rfl

/-- Witness for the amended claim C8 at a concrete included row. -/
theorem row_extraction_characterization_witness :
    (∃ t, rowToTxn c8good = some t) ∧
    (c8goodTxn.amount, c8goodTxn.is_credit) = parse_amount (rowAmountText c8good) ∧
    c8goodTxn.document = pyStripS ((c8good.getD 1 none).getD "") :=
  ⟨(row_extraction_characterization c8good).1.mpr (by decide),
   (row_extraction_characterization c8good).2 c8goodTxn rfl⟩

/-- Claim C9: the view projection returns the no-statement sentinel
exactly when the transaction mapping is empty; otherwise its transaction
list is a permutation of the stored transactions that is pairwise sorted
descending by (date rewritten to yyyy-mm-dd, time), the comparison being
viewLe (not below in the Python tuple order of the sort key). -/
theorem store_to_statement_spec (store : Store) :
    (store_to_statement store = none ↔ store.transactions = []) ∧
    (∀ st, store_to_statement store = some st →
      st.transactions.Perm (store.transactions.map Prod.snd) ∧
      st.transactions.Pairwise (fun a b => viewLe a b = true)) := by
  constructor
  · cases htr : store.transactions with
    | nil => simp [store_to_statement, htr]
    | cons e t => simp [store_to_statement, htr]
  · intro st hst
    unfold store_to_statement at hst
    revert hst
    cases htr : store.transactions with
    | nil =>
      intro hst
      exact Option.noConfusion hst
    | cons e t =>
      intro hst
      cases Option.some.inj hst
      constructor
      · rw [← htr]
        exact sortByLe_perm viewLe (store.transactions.map Prod.snd)
      · exact sortByLe_pairwise viewLe_total viewLe_trans _

/-- Witness for claim C9: the 02.03.2024 transaction is projected first
(descending order), and the projected list satisfies the sortedness and
permutation conclusions of the theorem. -/
theorem store_to_statement_spec_witness :
    store_to_statement c9store = some c9view ∧
    [c9t2, c9t1].Perm (c9store.transactions.map Prod.snd) ∧
    [c9t2, c9t1].Pairwise (fun a b => viewLe a b = true) := by
  have h := (store_to_statement_spec c9store).2 c9view (by rfl)
  exact ⟨by rfl, h.1, h.2⟩

/-- Claim C10: merging into a ledger with a non-empty header overwrites
each of the seven latest-wins fields exactly when the snapshot's value is
non-empty, and never changes the opening balance. -/
theorem header_latest_wins (store : Store) (h : StatementHeader) (s : BankStatement)
    (hh : store.header = some h) :
    ∃ h', (merge_statement store s).1.header = some h' ∧
      h'.owner = (if s.header.owner ≠ "" then s.header.owner else h.owner) ∧
      h'.account_number =
        (if s.header.account_number ≠ "" then s.header.account_number else h.account_number) ∧
      h'.account_opened =
        (if s.header.account_opened ≠ "" then s.header.account_opened else h.account_opened) ∧
      h'.currency = (if s.header.currency ≠ "" then s.header.currency else h.currency) ∧
      h'.document_number =
        (if s.header.document_number ≠ "" then s.header.document_number else h.document_number) ∧
      h'.document_date =
        (if s.header.document_date ≠ "" then s.header.document_date else h.document_date) ∧
      h'.generated_at =
        (if s.header.generated_at ≠ "" then s.header.generated_at else h.generated_at) ∧
      h'.opening_balance = h.opening_balance := by
  refine ⟨mergeHeader h s.header, by rw [merge_statement_header_eq, hh], ?_, ?_, ?_, ?_, ?_, ?_, ?_, ?_⟩
  · rw [mergeHeader_owner]
  · rw [mergeHeader_account_number]
  · rw [mergeHeader_account_opened]
  · rw [mergeHeader_currency]
  · rw [mergeHeader_document_number]
  · rw [mergeHeader_document_date]
  · rw [mergeHeader_generated_at]
  · rw [mergeHeader_opening_balance]

/-- Witness for claim C10: a non-empty snapshot owner overwrites, an
empty snapshot currency does not, and the opening balance is kept. -/
theorem header_latest_wins_witness :
    (merge_statement c10store c10snap).1.header.map StatementHeader.owner = some "New Owner" ∧
    (merge_statement c10store c10snap).1.header.map StatementHeader.currency = some "RUB" ∧
    (merge_statement c10store c10snap).1.header.map StatementHeader.opening_balance =
      some (7 : ℚ) := by
  obtain ⟨h', hh', f1, f2, f3, f4, f5, f6, f7, fo⟩ := header_latest_wins c10store c10h c10snap rfl
  rw [hh']
  refine ⟨?_, ?_, ?_⟩
  · rw [Option.map_some', f1, if_pos (show c10snap.header.owner ≠ "" by decide)]
    rfl
  · rw [Option.map_some', f4, if_neg (show ¬c10snap.header.currency ≠ "" by decide)]
    rfl
  · rw [Option.map_some', fo]
    rfl

end PZK
